import Mathlib

/-!
# PesaMirror voice-command pipeline — shallow embedding

This file embeds the voice-command pipeline of the PesaMirror web client in
Lean 4 and proves the specification claims about it:

* the intent grammar `parseIntent` (lib/intent.ts) — each JavaScript regex
  template is translated into an executable matcher over `List Char` whose
  deterministic greedy/lazy behaviour coincides with the backtracking regex
  (arguments recorded at each place where greediness could in principle
  matter);
* the contact directory resolvers `resolvePhoneOrName` / `resolveContact`
  (lib/voice-contacts.ts), with the directory passed explicitly in place of
  the module-level cache;
* the session state machine of `useVoiceCommand.start` / `cancel`
  (hooks/use-voice-command.ts), embedded as a pure function from the
  environment inputs (speech-capture results, directory contents) to a
  session outcome carrying the final hook state, the `(state, pendingIntent)`
  snapshot taken at every `setState` call, and the ordered list of observable
  side effects (speech, contact saves, dismissal, intent submission).

JavaScript string semantics are modelled on ASCII: `\s` is modelled by
`isJsWs` (space, tab, CR, LF, VT, FF), `\w` by ASCII letter/digit/underscore,
`toLowerCase` by ASCII lowering.
-/

namespace PesaMirror

/-! ## Character classes and string helpers (JS regex semantics, ASCII) -/

/-- JS `\s` (ASCII part): space, tab, carriage return, newline, vertical tab,
form feed. -/
def isJsWs (c : Char) : Bool :=
  c == ' ' || c == '\t' || c == '\r' || c == '\n' || c == '\x0b' || c == '\x0c'

/-- JS `\d`: ASCII decimal digit. -/
def isJsDigit (c : Char) : Bool :=
  '0' ≤ c && c ≤ '9'

/-- `[a-z]` under the `i` flag: ASCII letter. -/
def isAsciiAlpha (c : Char) : Bool :=
  ('a' ≤ c && c ≤ 'z') || ('A' ≤ c && c ≤ 'Z')

/-- JS `\w`: ASCII letter, digit or underscore. -/
def isWordChar (c : Char) : Bool :=
  isAsciiAlpha c || isJsDigit c || c == '_'

/-- `String.prototype.trim` on a character list. -/
def jsTrimList (cs : List Char) : List Char :=
  ((cs.dropWhile isJsWs).reverse.dropWhile isJsWs).reverse

/-- `String.prototype.trim`. -/
def jsTrim (s : String) : String :=
  String.mk (jsTrimList s.data)

/-- `String.prototype.toLowerCase` (ASCII). -/
def lowerStr (s : String) : String :=
  String.mk (s.data.map Char.toLower)

/-- Does the string start with an ASCII digit (JS `/^\d/.test`)? -/
def startsWithDigit (cs : List Char) : Bool :=
  match cs with
  | c :: _ => isJsDigit c
  | [] => false

/-- Case-insensitive literal match: consume `pat` from the front of `s`
(the regex literal under the `i` flag). -/
def stripCI (pat : List Char) (s : List Char) : Option (List Char) :=
  match pat, s with
  | [], rest => some rest
  | _ :: _, [] => none
  | p :: ps, c :: cs => if c.toLower == p.toLower then stripCI ps cs else none

/-- `\s+` (greedy): require at least one whitespace character, consume the
whole run.  Every use site is followed by a pattern that cannot start with
whitespace, so greediness is equivalent to the backtracking regex. -/
def spaces1 (s : List Char) : Option (List Char) :=
  match s with
  | c :: cs => if isJsWs c then some (cs.dropWhile isJsWs) else none
  | [] => none

/-- `(\d+)` (greedy): the captured digit run and the rest. -/
def digits1 (s : List Char) : Option (List Char × List Char) :=
  let ds := s.takeWhile isJsDigit
  if ds.isEmpty then none else some (ds, s.dropWhile isJsDigit)

/-! ## lib/intent.ts — the intent grammar -/

/-- `ParsedIntent` from lib/intent.ts. -/
inductive ParsedIntent where
  | SEND_MONEY (amount phone : String)
  | POCHI (amount phone : String)
  | PAYBILL (amount business account : String)
  | TILL (amount till : String)
  | WITHDRAW (amount agent store : String)
  /-- Resolved at runtime by looking up a saved till/paybill/mobile contact
  by name. -/
  | NAMED_PAYMENT (amount contactName : String)
deriving DecidableEq, Repr

/-- The optional `[,.]\d+` part of the amount: a separator character
immediately followed by a digit run. -/
def sepDigits (rest : List Char) : Option (Char × List Char × List Char) :=
  match rest with
  | c :: cs =>
    if c == ',' || c == '.' then
      match digits1 cs with
      | some (ds2, rest2) => some (c, ds2, rest2)
      | none => none
    else none
  | [] => none

/-- `AMOUNT_RE = (\d+(?:[,.]\d+)?)` (greedy): captured amount text and rest.
Greedy capture is equivalent to the backtracked regex at every use site: each
use is followed by `\s+` or `$`, and dropping the optional `[,.]\d+` part
leaves the scan at a separator character, which is neither whitespace nor
the end of input. -/
def takeAmount (s : List Char) : Option (List Char × List Char) :=
  (digits1 s).bind fun (ds, rest) =>
    match sepDigits rest with
    | some (c, ds2, rest2) => some (ds ++ c :: ds2, rest2)
    | none => some (ds, rest)

/-- The trailing name group `to\s+([\w\s]+?)$` after the literal `to` has
been consumed: the rest must begin with whitespace, be at least two
characters long, and consist entirely of word characters and whitespace
(the lazy group absorbs everything after the `\s+`). -/
def nameTail (r : List Char) : Bool :=
  (match r with
   | c :: _ => isJsWs c
   | [] => false)
  && decide (2 ≤ r.length)
  && r.all (fun c => isWordChar c || isJsWs c)

/-- The lazy capture of `\s+([\w\s]+?)$` on `r`: the remainder after the
maximal whitespace run, except that when `r` is all whitespace the greedy
`\s+` backtracks one character so the group captures the final whitespace
character. -/
def lazyNameCapture (r : List Char) : List Char :=
  let g := r.dropWhile isJsWs
  if g.isEmpty then r.drop (r.length - 1) else g

/-- `(?:shillings?|bob|kes)?` — optional currency word of the SEND_MONEY
template.  The three alternatives start with distinct letters, so committing
to the first literal that matches is equivalent to the regex. -/
def optCurrencyWord (s : List Char) : List Char :=
  match stripCI "shilling".data s with
  | some r =>
    match r with
    | c :: cs => if c.toLower == 's' then cs else r
    | [] => r
  | none =>
    match stripCI "bob".data s with
    | some r => r
    | none =>
      match stripCI "kes".data s with
      | some r => r
      | none => s

/-- `(?:amount\s+)?` — optional "amount" keyword before the amount capture.
If the literal matches but is not followed by whitespace the group is not
taken; the following `\d` cannot then match the letter `a`, so committing is
equivalent to the regex. -/
def optAmountKw (s : List Char) : List Char :=
  match stripCI "amount".data s with
  | some r =>
    match spaces1 r with
    | some r2 => r2
    | none => s
  | none => s

/-- `^send\s+(\d+(?:[,.]\d+)?)\s+(?:shillings?|bob|kes)?\s*to\s+([\w\s]+?)$`
(flag `i`).  Returns the raw amount capture and the raw name capture. -/
def matchSend (t : List Char) : Option (List Char × List Char) :=
  (stripCI "send".data t).bind fun r1 =>
  (spaces1 r1).bind fun r2 =>
  (takeAmount r2).bind fun (amt, r3) =>
  (spaces1 r3).bind fun r4 =>
  (stripCI "to".data ((optCurrencyWord r4).dropWhile isJsWs)).bind fun r7 =>
  if nameTail r7 then some (amt, lazyNameCapture r7) else none

/-- `^pochi\s+(\d+(?:[,.]\d+)?)\s+to\s+([\w\s]+?)$` (flag `i`). -/
def matchPochi (t : List Char) : Option (List Char × List Char) :=
  (stripCI "pochi".data t).bind fun r1 =>
  (spaces1 r1).bind fun r2 =>
  (takeAmount r2).bind fun (amt, r3) =>
  (spaces1 r3).bind fun r4 =>
  (stripCI "to".data r4).bind fun r5 =>
  if nameTail r5 then some (amt, lazyNameCapture r5) else none

/-- `^pay\s*bill\s+(\d+)\s+account\s+(\d+)\s+(?:amount\s+)?AMOUNT$` (flag
`i`).  Returns (business, account, raw amount). -/
def matchPaybill (t : List Char) : Option (List Char × List Char × List Char) :=
  (stripCI "pay".data t).bind fun r1 =>
  (stripCI "bill".data (r1.dropWhile isJsWs)).bind fun r2 =>
  (spaces1 r2).bind fun r3 =>
  (digits1 r3).bind fun (bus, r4) =>
  (spaces1 r4).bind fun r5 =>
  (stripCI "account".data r5).bind fun r6 =>
  (spaces1 r6).bind fun r7 =>
  (digits1 r7).bind fun (acct, r8) =>
  (spaces1 r8).bind fun r9 =>
  (takeAmount (optAmountKw r9)).bind fun (amt, rest) =>
  if rest.isEmpty then some (bus, acct, amt) else none

/-- The verb alternation `(?:pay\s+till|buy\s+goods)` of the TILL template.
The two alternatives start with distinct letters, so committing to the one
whose first literal matches is equivalent to the regex. -/
def tillVerb (t : List Char) : Option (List Char) :=
  match stripCI "pay".data t with
  | some r1 => (spaces1 r1).bind fun r2 => stripCI "till".data r2
  | none =>
    match stripCI "buy".data t with
    | some r1 => (spaces1 r1).bind fun r2 => stripCI "goods".data r2
    | none => none

/-- `^(?:pay\s+till|buy\s+goods)\s+(\d+)\s+(?:amount\s+)?AMOUNT$` (flag `i`).
Returns (till, raw amount). -/
def matchTill (t : List Char) : Option (List Char × List Char) :=
  (tillVerb t).bind fun r3 =>
  (spaces1 r3).bind fun r4 =>
  (digits1 r4).bind fun (till, r5) =>
  (spaces1 r5).bind fun r6 =>
  (takeAmount (optAmountKw r6)).bind fun (amt, rest) =>
  if rest.isEmpty then some (till, amt) else none

/-- `^withdraw\s+AMOUNT\s+agent\s+(\d+)\s+store\s+(\d+)$` (flag `i`).
Returns (raw amount, agent, store). -/
def matchWithdraw (t : List Char) : Option (List Char × List Char × List Char) :=
  (stripCI "withdraw".data t).bind fun r1 =>
  (spaces1 r1).bind fun r2 =>
  (takeAmount r2).bind fun (amt, r3) =>
  (spaces1 r3).bind fun r4 =>
  (stripCI "agent".data r4).bind fun r5 =>
  (spaces1 r5).bind fun r6 =>
  (digits1 r6).bind fun (agent, r7) =>
  (spaces1 r7).bind fun r8 =>
  (stripCI "store".data r8).bind fun r9 =>
  (spaces1 r9).bind fun r10 =>
  (digits1 r10).bind fun (store, rest) =>
  if rest.isEmpty then some (amt, agent, store) else none

/-- The tail `\s+(?:amount\s+)?AMOUNT$` of the NAMED_PAYMENT template,
yielding the raw amount capture. -/
def namedTailAmount (r : List Char) : Option (List Char) :=
  (spaces1 r).bind fun r1 =>
  (takeAmount (optAmountKw r1)).bind fun (amt, rest) =>
  if rest.isEmpty then some amt else none

/-- The lazy name group `([a-z][a-z0-9\s]*?)` of the NAMED_PAYMENT template:
starting from the accumulated (reversed) capture `accRev`, try the tail at
the current position first (lazy = shortest capture wins) and otherwise
extend the capture by one class character. -/
def namedLazyScan : List Char → List Char → Option (List Char × List Char)
  | accRev, [] =>
    match namedTailAmount [] with
    | some amt => some (accRev.reverse, amt)
    | none => none
  | accRev, c :: cs =>
    match namedTailAmount (c :: cs) with
    | some amt => some (accRev.reverse, amt)
    | none =>
      if isAsciiAlpha c || isJsDigit c || isJsWs c then namedLazyScan (c :: accRev) cs
      else none

/-- The verb alternation `(?:pay|buy\s+(?:at|from))` of the NAMED_PAYMENT
template.  All alternative branches start with distinct letters, so
committing is equivalent to the regex. -/
def namedVerb (t : List Char) : Option (List Char) :=
  match stripCI "pay".data t with
  | some r1 => some r1
  | none =>
    match stripCI "buy".data t with
    | some r1 =>
      (spaces1 r1).bind fun r2 =>
        match stripCI "at".data r2 with
        | some r3 => some r3
        | none => stripCI "from".data r2
    | none => none

/-- `^(?:pay|buy\s+(?:at|from))\s+([a-z][a-z0-9\s]*?)\s+(?:amount\s+)?AMOUNT$`
(flag `i`).  Returns (raw name capture, raw amount capture). -/
def matchNamed (t : List Char) : Option (List Char × List Char) :=
  (namedVerb t).bind fun r1 =>
  (spaces1 r1).bind fun r2 =>
  match r2 with
  | c :: cs => if isAsciiAlpha c then namedLazyScan [c] cs else none
  | [] => none

/-- `normalizeAmount`: strip commas from spoken numbers like "1,000". -/
def normalizeAmount (raw : String) : String :=
  String.mk (raw.data.filter (fun c => c != ','))

/-- `parseIntent` from lib/intent.ts: trim the transcript, then try the six
templates in source order — SEND_MONEY, POCHI, PAYBILL, TILL, WITHDRAW and
only then the generic NAMED_PAYMENT. -/
def parseIntent (transcript : String) : Option ParsedIntent :=
  let t := (jsTrim transcript).data
  match matchSend t with
  | some (amt, nm) =>
    some (.SEND_MONEY (normalizeAmount (String.mk amt)) (jsTrim (String.mk nm)))
  | none =>
  match matchPochi t with
  | some (amt, nm) =>
    some (.POCHI (normalizeAmount (String.mk amt)) (jsTrim (String.mk nm)))
  | none =>
  match matchPaybill t with
  | some (bus, acct, amt) =>
    some (.PAYBILL (normalizeAmount (String.mk amt)) (String.mk bus) (String.mk acct))
  | none =>
  match matchTill t with
  | some (till, amt) =>
    some (.TILL (normalizeAmount (String.mk amt)) (String.mk till))
  | none =>
  match matchWithdraw t with
  | some (amt, agent, store) =>
    some (.WITHDRAW (normalizeAmount (String.mk amt)) (String.mk agent) (String.mk store))
  | none =>
  match matchNamed t with
  | some (nm, amt) =>
    some (.NAMED_PAYMENT (normalizeAmount (String.mk amt)) (jsTrim (String.mk nm)))
  | none => none

/-- `describeIntent`: human-readable summary of a parsed intent for TTS
confirmation. -/
def describeIntent (intent : ParsedIntent) : String :=
  match intent with
  | .SEND_MONEY amount phone => "Send " ++ amount ++ " shillings to " ++ phone ++ "."
  | .POCHI amount phone => "Pochi " ++ amount ++ " shillings to " ++ phone ++ "."
  | .PAYBILL amount business account =>
    "Pay bill " ++ business ++ ", account " ++ account ++ ", amount " ++ amount ++ " shillings."
  | .TILL amount till =>
    "Buy goods at till " ++ till ++ ", amount " ++ amount ++ " shillings."
  | .WITHDRAW amount agent store =>
    "Withdraw " ++ amount ++ " shillings from agent " ++ agent ++ ", store " ++ store ++ "."
  | .NAMED_PAYMENT amount contactName =>
    "Pay " ++ amount ++ " shillings to " ++ contactName ++ "."

/-! ## lib/voice-contacts.ts — the contact directory

The module-level decrypted cache is replaced by an explicit
`List VoiceContact` argument (the directory contents returned by
`getVoiceContacts()`). -/

/-- `ContactType` from lib/voice-contacts.ts. -/
inductive ContactType where
  | mobile
  | pochi
  | till
  | paybill
deriving DecidableEq, Repr

/-- `VoiceContact` from lib/voice-contacts.ts.  `type` is optional (legacy
contacts have no type and default to mobile); `accountNumber` is only used
for paybill contacts. -/
structure VoiceContact where
  name : String
  type : Option ContactType := none
  phone : String
  accountNumber : Option String := none
deriving DecidableEq, Repr

/-- `isPhoneNumber`: `/^[+\d\s\-()]{7,15}$/`. -/
def isPhoneNumber (s : String) : Bool :=
  decide (7 ≤ s.length) && decide (s.length ≤ 15)
    && s.data.all (fun c => c == '+' || isJsDigit c || isJsWs c || c == '-' || c == '(' || c == ')')

/-- `normalizePhone`: strip whitespace, dashes and parentheses, and rewrite a
leading `+254` to `0`. -/
def normalizePhone (phone : String) : String :=
  let p := phone.data.filter (fun c => !(isJsWs c || c == '-' || c == '(' || c == ')'))
  match p with
  | '+' :: '2' :: '5' :: '4' :: rest => String.mk ('0' :: rest)
  | _ => String.mk p

/-- The candidate filter of `resolvePhoneOrName`:
`!c.type || c.type === 'mobile' || c.type === 'pochi'`. -/
def mobileLike (c : VoiceContact) : Bool :=
  match c.type with
  | none => true
  | some .mobile => true
  | some .pochi => true
  | some _ => false

/-- JS `String.prototype.split(/\s+/)`: tokens between maximal whitespace
runs, with an empty leading (trailing) token when the string starts (ends)
with whitespace, and `[""]` on the empty string.  Built from the right: a
whitespace character that ends a run (its successor is absent or not
whitespace) closes one boundary; characters inside a run are absorbed. -/
def jsSplitChars : List Char → List (List Char)
  | [] => [[]]
  | c :: cs =>
    if isJsWs c then
      match cs with
      | c2 :: _ => if isJsWs c2 then jsSplitChars cs else [] :: jsSplitChars cs
      | [] => [] :: jsSplitChars cs
    else
      match jsSplitChars cs with
      | t :: rest => (c :: t) :: rest
      | [] => [[c]]

/-- JS `String.prototype.split(/\s+/)` on a string. -/
def jsSplitWs (s : String) : List String :=
  (jsSplitChars s.data).map String.mk

/-- The word-overlap stage shared by both resolvers:
`queryWords.every(w => nameWords.some(nw => nw.startsWith(w)))`. -/
def wordsOverlap (queryWords nameWords : List String) : Bool :=
  queryWords.all (fun w => nameWords.any (fun nw => w.data.isPrefixOf nw.data))

/-- `resolvePhoneOrName`: phone-shaped queries are normalized and returned
without a directory lookup; otherwise the candidates are filtered to
mobile/pochi/legacy-untyped contacts and matched by exact lowercase name,
then lowercase name prefix, then per-word prefix overlap. -/
def resolvePhoneOrName (contacts : List VoiceContact) (query : String) : Option String :=
  let cleaned := jsTrim query
  if isPhoneNumber cleaned then some (normalizePhone cleaned)
  else
    let cs := contacts.filter mobileLike
    let lower := lowerStr cleaned
    match cs.find? (fun c => lowerStr c.name == lower) with
    | some c => some c.phone
    | none =>
      match cs.find? (fun c => lower.data.isPrefixOf (lowerStr c.name).data) with
      | some c => some c.phone
      | none =>
        let queryWords := jsSplitWs lower
        match cs.find? (fun c => wordsOverlap queryWords (jsSplitWs (lowerStr c.name))) with
        | some c => some c.phone
        | none => none

/-- `resolveContact`: same three matching stages over all contacts (no type
filter), returning the full record. -/
def resolveContact (contacts : List VoiceContact) (query : String) : Option VoiceContact :=
  let lower := lowerStr (jsTrim query)
  match contacts.find? (fun c => lowerStr c.name == lower) with
  | some c => some c
  | none =>
    match contacts.find? (fun c => lower.data.isPrefixOf (lowerStr c.name).data) with
    | some c => some c
    | none =>
      let queryWords := jsSplitWs lower
      contacts.find? (fun c => wordsOverlap queryWords (jsSplitWs (lowerStr c.name)))

/-! ## hooks/use-voice-command.ts — the session state machine

`start()` is an async function whose only interactions with the outside
world are the two `listenOnce` captures, the text-to-speech calls (whose
failures are swallowed and never influence control flow), the contact
auto-save, the dismissal callback and the intent-submission callback.  It is
therefore embedded as a pure function of the directory contents and the two
capture results.  The result records the final hook state, the
`(state, pendingIntent)` snapshot at every `setState` call in order, and the
ordered observable side effects. -/

/-- `VoiceCommandState` from hooks/use-voice-command.ts. -/
inductive VoiceCommandState where
  | idle
  | listening
  | processing
  | confirming
  | awaiting_confirmation
  | error
deriving DecidableEq, Repr

/-- Observable side effects of a session, in order of occurrence. -/
inductive Effect where
  /-- A `speak(msg)` call (failures are swallowed by the hook). -/
  | speak (msg : String)
  /-- A `cancelSpeech()` call. -/
  | cancelSpeech
  /-- A `saveVoiceContact({name, phone})` call (the auto-learn side effect). -/
  | saveContact (name phone : String)
  /-- The `onDismiss?.()` callback. -/
  | dismiss
  /-- The `onVoiceSubmit(intent)` intent-submission callback. -/
  | submit (intent : ParsedIntent)
deriving DecidableEq, Repr

/-- The outcome of a session run. -/
structure SessionResult where
  /-- Final `state` of the hook. -/
  state : VoiceCommandState
  /-- Final `transcript`. -/
  transcript : String
  /-- Final `pendingIntent`. -/
  pendingIntent : Option ParsedIntent
  /-- Final `errorMessage`. -/
  errorMessage : String
  /-- `(state, pendingIntent)` snapshot at each `setState` call, in order. -/
  trace : List (VoiceCommandState × Option ParsedIntent)
  /-- Observable side effects, in order. -/
  effects : List Effect
deriving DecidableEq, Repr

/-- The confirmation predicate:
`/^(yes|yeah|yep|yup|confirm|send|do it|go|ok|okay)/i.test(response.trim())`
— a case-insensitive prefix test, applied here to the already-trimmed
utterance. -/
def affirmative (s : String) : Bool :=
  ["yes", "yeah", "yep", "yup", "confirm", "send", "do it", "go", "ok", "okay"].any
    (fun p => p.data.isPrefixOf (lowerStr s).data)

/-- The auto-save name extraction `raw.match(/to\s+([a-z\s]+?)(?:\s*$)/i)`:
the regex matches at the leftmost position where `to` is followed by at
least one whitespace character and the whole remainder of the string
consists of ASCII letters and whitespace (at least two characters, so that
`\s+` and the group are both nonempty).  The search condition at one
candidate position. -/
def toNameCond (r : List Char) : Bool :=
  (match r with
   | c :: _ => isJsWs c
   | [] => false)
  && decide (2 ≤ r.length)
  && r.all (fun c => isAsciiAlpha c || isJsWs c)

/-- The lazy capture `([a-z\s]+?)` before `(?:\s*$)`: the greedy `\s+` takes
the maximal leading whitespace run and the lazy group then stops at the last
non-whitespace character (the shortest capture whose remainder matches
`\s*$`), i.e. the remainder trimmed at both ends; on an all-whitespace
remainder the greedy `\s+` backtracks one character and the group captures
the final whitespace character. -/
def toNameCapture (r : List Char) : List Char :=
  let g := jsTrimList r
  if g.isEmpty then r.drop (r.length - 1) else g

/-- Leftmost search for `to\s+([a-z\s]+?)(?:\s*$)` over the raw transcript,
returning the raw group capture. -/
def extractToName (cs : List Char) : Option (List Char) :=
  match cs with
  | [] => none
  | [_] => none
  | c1 :: c2 :: rest =>
    if c1.toLower == 't' && c2.toLower == 'o' && toNameCond rest then
      some (toNameCapture rest)
    else extractToName (c2 :: rest)

/-- The auto-learn side effect at the top of `executeConfirm`: extract a
trailing `to <name>` clause from the raw transcript and, when the name is
truthy, does not start with a digit and the intent is SEND_MONEY or POCHI,
save `{name, phone: intent.phone}`. -/
def autoSaveEffects (intent : ParsedIntent) (raw : String) : List Effect :=
  match extractToName raw.data with
  | none => []
  | some g =>
    let rawName := jsTrim (String.mk g)
    if rawName != "" && !startsWithDigit rawName.data then
      match intent with
      | .SEND_MONEY _ phone => [.saveContact rawName phone]
      | .POCHI _ phone => [.saveContact rawName phone]
      | _ => []
    else []

/-- The confirmation phase shared verbatim by the NAMED_PAYMENT branch and
the generic tail of `start()`: set the pending intent, enter `confirming`,
speak the readback, enter `awaiting_confirmation` and listen once.  A
capture failure returns to `confirming` with a retry prompt; an affirmative
response runs `executeConfirm` (auto-save, reset, dismiss, submit); any
other response cancels (reset, dismiss). -/
def confirmPhase (intent : ParsedIntent) (raw : String)
    (capture2 : Except Unit String) : SessionResult :=
  let prompt := describeIntent intent ++ " Say yes to confirm, or no to cancel."
  match capture2 with
  | .error _ =>
    { state := .confirming
      transcript := raw
      pendingIntent := some intent
      errorMessage := ""
      trace := [(.confirming, some intent), (.awaiting_confirmation, some intent),
                (.confirming, some intent)]
      effects := [.speak prompt, .speak "I couldn't hear you. Tap yes or no on screen."] }
  | .ok response =>
    if affirmative (jsTrim response) then
      { state := .idle
        transcript := ""
        pendingIntent := none
        errorMessage := ""
        trace := [(.confirming, some intent), (.awaiting_confirmation, some intent),
                  (.idle, none)]
        effects := [.speak prompt] ++ autoSaveEffects intent raw
          ++ [.cancelSpeech, .speak "Perfect, sending now via remote push.",
              .dismiss, .submit intent] }
    else
      { state := .idle
        transcript := ""
        pendingIntent := none
        errorMessage := ""
        trace := [(.confirming, some intent), (.awaiting_confirmation, some intent),
                  (.idle, none)]
        effects := [.speak prompt, .speak "Okay, no problem. Cancelled.", .dismiss] }

/-- A `setError(msg)` outcome: enter the `error` state and speak the
message. -/
def errorResult (raw msg : String) : SessionResult :=
  { state := .error
    transcript := raw
    pendingIntent := none
    errorMessage := msg
    trace := [(.error, none)]
    effects := [.speak msg] }

/-- Prefix earlier trace entries and effects onto a later outcome. -/
def withPrefix (tracePre : List (VoiceCommandState × Option ParsedIntent))
    (effectsPre : List Effect) (r : SessionResult) : SessionResult :=
  { r with trace := tracePre ++ r.trace, effects := effectsPre ++ r.effects }

/-- The error messages of `start()`. -/
def unsupportedMsg : String :=
  "Voice commands are not supported in this browser. Try Chrome or Safari."

/-- Parse-failure message. -/
def parseFailMsg : String :=
  "Sorry, I didn't catch that. Try: send 500 shillings to 0712345678."

/-- SEND_MONEY/POCHI unresolved-name message. -/
def contactNotFoundMsg (phone : String) : String :=
  "I couldn't find \"" ++ phone ++ "\" in your contacts. Add them first, or say a phone number directly."

/-- NAMED_PAYMENT unresolved-contact message. -/
def namedNotFoundMsg (contactName : String) : String :=
  "I couldn't find \"" ++ contactName ++ "\" in your contacts. Add it first under Voice Contacts."

/-- The dedicated message for a paybill contact lacking an account number. -/
def needsAccountMsg (c : VoiceContact) (amount : String) : String :=
  c.name ++ " needs an account number. Edit the contact to add one, or say: pay bill "
    ++ c.phone ++ " account <number> " ++ amount

/-- `!/^\d/.test(intent.phone.replace(/[\s\-()+]/g, ''))` — the SEND/POCHI
fallthrough check: keep the unresolved target only when it starts with a
digit after stripping separators. -/
def strippedStartsWithDigit (phone : String) : Bool :=
  startsWithDigit (phone.data.filter (fun c => !(isJsWs c || c == '-' || c == '(' || c == ')' || c == '+')))

/-- The paybill account presence check `!contact.accountNumber` (JS
falsiness: both a missing field and the empty string fail it). -/
def hasAccountNumber (c : VoiceContact) : Bool :=
  match c.accountNumber with
  | some s => s != ""
  | none => false

/-- `start()` as a pure session function: `isSupported` is the speech
support flag, `contacts` the directory contents, `capture1`/`capture2` the
results of the two `listenOnce` calls (`capture1` errors carry the spoken
error message). -/
def startRun (isSupported : Bool) (contacts : List VoiceContact)
    (capture1 : Except String String) (capture2 : Except Unit String) : SessionResult :=
  if !isSupported then errorResult "" unsupportedMsg
  else
    match capture1 with
    | .error e => withPrefix [(.listening, none)] [.cancelSpeech] (errorResult "" e)
    | .ok raw =>
      withPrefix [(.listening, none), (.processing, none)] [.cancelSpeech] <|
        match parseIntent raw with
        | none => errorResult raw parseFailMsg
        | some intent =>
          match intent with
          | .SEND_MONEY amount phone =>
            (match resolvePhoneOrName contacts phone with
             | some resolved => confirmPhase (.SEND_MONEY amount resolved) raw capture2
             | none =>
               if strippedStartsWithDigit phone then
                 confirmPhase (.SEND_MONEY amount phone) raw capture2
               else errorResult raw (contactNotFoundMsg phone))
          | .POCHI amount phone =>
            (match resolvePhoneOrName contacts phone with
             | some resolved => confirmPhase (.POCHI amount resolved) raw capture2
             | none =>
               if strippedStartsWithDigit phone then
                 confirmPhase (.POCHI amount phone) raw capture2
               else errorResult raw (contactNotFoundMsg phone))
          | .NAMED_PAYMENT amount contactName =>
            (match resolveContact contacts contactName with
             | none => errorResult raw (namedNotFoundMsg contactName)
             | some contact =>
               match contact.type.getD .mobile with
               | .till => confirmPhase (.TILL amount contact.phone) raw capture2
               | .paybill =>
                 if hasAccountNumber contact then
                   confirmPhase
                     (.PAYBILL amount contact.phone (contact.accountNumber.getD ""))
                     raw capture2
                 else errorResult raw (needsAccountMsg contact amount)
               | .pochi => confirmPhase (.POCHI amount contact.phone) raw capture2
               | .mobile => confirmPhase (.SEND_MONEY amount contact.phone) raw capture2)
          | .PAYBILL a b acct => confirmPhase (.PAYBILL a b acct) raw capture2
          | .TILL a t => confirmPhase (.TILL a t) raw capture2
          | .WITHDRAW a g s => confirmPhase (.WITHDRAW a g s) raw capture2

/-- The manual `cancel()` operation: cancel speech, speak the cancellation,
reset to idle and dismiss.  It touches neither the contact directory nor the
submission callback. -/
def cancelRun : SessionResult :=
  { state := .idle
    transcript := ""
    pendingIntent := none
    errorMessage := ""
    trace := [(.idle, none)]
    effects := [.cancelSpeech, .speak "Okay, cancelled.", .dismiss] }

/-! ## Claim-support definitions -/

/-- A concrete (executable) intent: any variant except the transient
`NAMED_PAYMENT`. -/
def isConcrete (i : ParsedIntent) : Bool :=
  match i with
  | .NAMED_PAYMENT _ _ => false
  | _ => true

/-- The pending intent exists and is concrete. -/
def pendingConcrete (o : Option ParsedIntent) : Bool :=
  match o with
  | some i => isConcrete i
  | none => false

/-- An effect is an intent submission. -/
def isSubmitEffect (e : Effect) : Bool :=
  match e with
  | .submit _ => true
  | _ => false

/-- An effect is a contact save (a write to the Contact Directory). -/
def isSaveEffect (e : Effect) : Bool :=
  match e with
  | .saveContact _ _ => true
  | _ => false

/-- An effect that, if it is a submission, submits a concrete intent. -/
def submitsConcrete (e : Effect) : Bool :=
  match e with
  | .submit i => isConcrete i
  | _ => true

/-- The amount field of an intent (every variant carries one). -/
def amountOf (i : ParsedIntent) : String :=
  match i with
  | .SEND_MONEY a _ => a
  | .POCHI a _ => a
  | .PAYBILL a _ _ => a
  | .TILL a _ => a
  | .WITHDRAW a _ _ => a
  | .NAMED_PAYMENT a _ => a

/-- The parse result is a NAMED_PAYMENT. -/
def isNamed (o : Option ParsedIntent) : Bool :=
  match o with
  | some (.NAMED_PAYMENT _ _) => true
  | _ => false

/-- Canonical amount shape: one or more digits optionally followed by a
decimal point and one or more digits. -/
def isCanonicalAmount (s : String) : Bool :=
  let ds := s.data.takeWhile isJsDigit
  let rest := s.data.dropWhile isJsDigit
  !ds.isEmpty &&
    (rest.isEmpty ||
      (match rest with
       | '.' :: r2 => !r2.isEmpty && r2.all isJsDigit
       | _ => false))

/-! ## Helper lemmas -/

theorem withPrefix_state (tp : List (VoiceCommandState × Option ParsedIntent))
    (ep : List Effect) (r : SessionResult) : (withPrefix tp ep r).state = r.state := rfl

theorem withPrefix_pending (tp : List (VoiceCommandState × Option ParsedIntent))
    (ep : List Effect) (r : SessionResult) :
    (withPrefix tp ep r).pendingIntent = r.pendingIntent := rfl

theorem withPrefix_errorMessage (tp : List (VoiceCommandState × Option ParsedIntent))
    (ep : List Effect) (r : SessionResult) :
    (withPrefix tp ep r).errorMessage = r.errorMessage := rfl

theorem withPrefix_trace (tp : List (VoiceCommandState × Option ParsedIntent))
    (ep : List Effect) (r : SessionResult) :
    (withPrefix tp ep r).trace = tp ++ r.trace := rfl

theorem withPrefix_effects (tp : List (VoiceCommandState × Option ParsedIntent))
    (ep : List Effect) (r : SessionResult) :
    (withPrefix tp ep r).effects = ep ++ r.effects := rfl

/-- The session prefix before the confirmation phase only visits
`listening` and `processing`, with no pending intent. -/
def PreOk (pre : List (VoiceCommandState × Option ParsedIntent)) : Prop :=
  ∀ p ∈ pre, (p.1 = VoiceCommandState.listening ∨ p.1 = VoiceCommandState.processing) ∧ p.2 = none

/-- The effect prefix before the confirmation phase is only speech
cancellation. -/
def EffPreOk (eff : List Effect) : Prop :=
  ∀ e ∈ eff, e = Effect.cancelSpeech

theorem preOk_nil : PreOk [] := by
  intro p hp
  simp at hp

theorem preOk_one : PreOk [(VoiceCommandState.listening, none)] := by
  intro p hp
  simp at hp
  simp [hp]

theorem preOk_two :
    PreOk [(VoiceCommandState.listening, none), (VoiceCommandState.processing, none)] := by
  intro p hp
  simp at hp
  rcases hp with hp | hp <;> simp [hp]

theorem effPreOk_nil : EffPreOk [] := by
  intro e he
  simp at he

theorem effPreOk_cancel : EffPreOk [Effect.cancelSpeech] := by
  intro e he
  simpa using he

/-- Auto-save produces only contact-save effects. -/
theorem autoSaveEffects_save (intent : ParsedIntent) (raw : String) :
    ∀ e ∈ autoSaveEffects intent raw, isSaveEffect e = true := by
  intro e he
  unfold autoSaveEffects at he
  split at he
  · simp at he
  · dsimp only at he
    split at he
    · split at he <;> simp_all [isSaveEffect]
    · simp at he

/-- Bool `all` over an append from `all` on both parts. -/
theorem all_append_and {A : Type} (l1 l2 : List A) (p : A → Bool)
    (h1 : l1.all p = true) (h2 : l2.all p = true) : (l1 ++ l2).all p = true := by
  rw [List.all_append, h1, h2]
  rfl

/-- Every `confirming`/`awaiting_confirmation` snapshot of the confirmation
phase carries the intent it was entered with. -/
theorem confirmPhase_trace_pending (intent : ParsedIntent) (raw : String)
    (cap2 : Except Unit String) :
    ∀ p ∈ (confirmPhase intent raw cap2).trace,
      (p.1 = VoiceCommandState.confirming ∨ p.1 = VoiceCommandState.awaiting_confirmation) →
      p.2 = some intent := by
  intro p hp _
  rcases cap2 with _ | resp
  · simp [confirmPhase] at hp
    rcases hp with hp | hp | hp <;> simp [hp]
  · by_cases haff : affirmative (jsTrim resp) = true <;>
      simp [confirmPhase, haff] at hp <;>
      rcases hp with hp | hp | hp <;> simp_all

/-- The confirmation phase only ever submits the intent it was entered
with. -/
theorem confirmPhase_submit_eq (intent : ParsedIntent) (raw : String)
    (cap2 : Except Unit String) :
    ∀ e ∈ (confirmPhase intent raw cap2).effects,
      isSubmitEffect e = true → e = Effect.submit intent := by
  intro e he hs
  rcases cap2 with _ | resp
  · simp [confirmPhase] at he
    rcases he with he | he <;> simp [he, isSubmitEffect] at hs ⊢
  · by_cases haff : affirmative (jsTrim resp) = true
    · simp [confirmPhase, haff] at he
      rcases he with he | he | he
      · simp [he, isSubmitEffect] at hs
      · have := autoSaveEffects_save intent raw e he
        cases e <;> simp_all [isSaveEffect, isSubmitEffect]
      · rcases he with he | he | he | he <;> simp [he, isSubmitEffect] at hs ⊢
    · simp [confirmPhase, haff] at he
      rcases he with he | he | he <;> simp [he, isSubmitEffect] at hs

/-- The confirmation phase on a failed confirmation capture: back to
`confirming`, intent retained, retry prompt spoken, nothing submitted. -/
theorem confirmPhase_capture_failure (intent : ParsedIntent) (raw : String) :
    (confirmPhase intent raw (.error ())).state = VoiceCommandState.confirming ∧
    (confirmPhase intent raw (.error ())).pendingIntent = some intent ∧
    Effect.speak "I couldn't hear you. Tap yes or no on screen."
      ∈ (confirmPhase intent raw (.error ())).effects ∧
    ∀ e ∈ (confirmPhase intent raw (.error ())).effects, isSubmitEffect e = false := by
  refine ⟨rfl, rfl, by simp [confirmPhase], ?_⟩
  intro e he
  simp [confirmPhase] at he
  rcases he with he | he <;> simp [he, isSubmitEffect]

/-- The confirmation phase on a non-affirmative response: reset to idle,
nothing saved, nothing submitted. -/
theorem confirmPhase_cancelled (intent : ParsedIntent) (raw resp : String)
    (h : affirmative (jsTrim resp) = false) :
    (confirmPhase intent raw (.ok resp)).state = VoiceCommandState.idle ∧
    ∀ e ∈ (confirmPhase intent raw (.ok resp)).effects,
      isSaveEffect e = false ∧ isSubmitEffect e = false := by
  refine ⟨by simp [confirmPhase, h], ?_⟩
  intro e he
  simp [confirmPhase, h] at he
  rcases he with he | he | he <;> simp [he, isSaveEffect, isSubmitEffect]

/-- The confirmation phase on an affirmative response: reset to idle, the
intent submitted, and every submission's intent appears as the pending
intent of the `awaiting_confirmation` snapshot. -/
theorem confirmPhase_confirmed (intent : ParsedIntent) (raw resp : String)
    (h : affirmative (jsTrim resp) = true) :
    (confirmPhase intent raw (.ok resp)).state = VoiceCommandState.idle ∧
    Effect.submit intent ∈ (confirmPhase intent raw (.ok resp)).effects ∧
    (VoiceCommandState.awaiting_confirmation, some intent)
      ∈ (confirmPhase intent raw (.ok resp)).trace := by
  refine ⟨by simp [confirmPhase, h], by simp [confirmPhase, h], by simp [confirmPhase, h]⟩

/-- Every session run either terminates in an error outcome, or enters the
confirmation phase with a concrete intent; in both cases the preceding trace
visits only `listening`/`processing` with no pending intent, and the
preceding effects are only speech cancellation. -/
theorem startRun_cases (sup : Bool) (contacts : List VoiceContact)
    (cap1 : Except String String) (cap2 : Except Unit String) :
    (∃ pre eff raw msg, PreOk pre ∧ EffPreOk eff ∧
        startRun sup contacts cap1 cap2 = withPrefix pre eff (errorResult raw msg))
    ∨ (∃ pre eff intent raw, PreOk pre ∧ EffPreOk eff ∧ isConcrete intent = true ∧
        startRun sup contacts cap1 cap2 = withPrefix pre eff (confirmPhase intent raw cap2)) := by
  cases sup with
  | false =>
    left
    refine ⟨[], [], "", unsupportedMsg, preOk_nil, effPreOk_nil, ?_⟩
    simp [startRun, withPrefix]
  | true =>
    cases cap1 with
    | error e =>
      left
      exact ⟨[(.listening, none)], [.cancelSpeech], "", e, preOk_one, effPreOk_cancel, rfl⟩
    | ok raw =>
      have hrun : startRun true contacts (.ok raw) cap2 =
          withPrefix [(.listening, none), (.processing, none)] [.cancelSpeech]
            (match parseIntent raw with
             | none => errorResult raw parseFailMsg
             | some intent =>
               match intent with
               | .SEND_MONEY amount phone =>
                 (match resolvePhoneOrName contacts phone with
                  | some resolved => confirmPhase (.SEND_MONEY amount resolved) raw cap2
                  | none =>
                    if strippedStartsWithDigit phone then
                      confirmPhase (.SEND_MONEY amount phone) raw cap2
                    else errorResult raw (contactNotFoundMsg phone))
               | .POCHI amount phone =>
                 (match resolvePhoneOrName contacts phone with
                  | some resolved => confirmPhase (.POCHI amount resolved) raw cap2
                  | none =>
                    if strippedStartsWithDigit phone then
                      confirmPhase (.POCHI amount phone) raw cap2
                    else errorResult raw (contactNotFoundMsg phone))
               | .NAMED_PAYMENT amount contactName =>
                 (match resolveContact contacts contactName with
                  | none => errorResult raw (namedNotFoundMsg contactName)
                  | some contact =>
                    match contact.type.getD .mobile with
                    | .till => confirmPhase (.TILL amount contact.phone) raw cap2
                    | .paybill =>
                      if hasAccountNumber contact then
                        confirmPhase
                          (.PAYBILL amount contact.phone (contact.accountNumber.getD ""))
                          raw cap2
                      else errorResult raw (needsAccountMsg contact amount)
                    | .pochi => confirmPhase (.POCHI amount contact.phone) raw cap2
                    | .mobile => confirmPhase (.SEND_MONEY amount contact.phone) raw cap2)
               | .PAYBILL a b acct => confirmPhase (.PAYBILL a b acct) raw cap2
               | .TILL a t => confirmPhase (.TILL a t) raw cap2
               | .WITHDRAW a g s => confirmPhase (.WITHDRAW a g s) raw cap2) := rfl
      rw [hrun]
      rcases hpi : parseIntent raw with _ | intent
      · left
        exact ⟨_, _, raw, parseFailMsg, preOk_two, effPreOk_cancel, rfl⟩
      · cases intent with
        | SEND_MONEY a p =>
          rcases hr : resolvePhoneOrName contacts p with _ | res
          · by_cases hd : strippedStartsWithDigit p = true
            · right
              exact ⟨_, _, .SEND_MONEY a p, raw, preOk_two, effPreOk_cancel, rfl,
                by simp [hr, hd]⟩
            · left
              refine ⟨_, _, raw, contactNotFoundMsg p, preOk_two, effPreOk_cancel, ?_⟩
              simp at hd
              simp [hr, hd]
          · right
            exact ⟨_, _, .SEND_MONEY a res, raw, preOk_two, effPreOk_cancel, rfl,
              by simp [hr]⟩
        | POCHI a p =>
          rcases hr : resolvePhoneOrName contacts p with _ | res
          · by_cases hd : strippedStartsWithDigit p = true
            · right
              exact ⟨_, _, .POCHI a p, raw, preOk_two, effPreOk_cancel, rfl,
                by simp [hr, hd]⟩
            · left
              refine ⟨_, _, raw, contactNotFoundMsg p, preOk_two, effPreOk_cancel, ?_⟩
              simp at hd
              simp [hr, hd]
          · right
            exact ⟨_, _, .POCHI a res, raw, preOk_two, effPreOk_cancel, rfl,
              by simp [hr]⟩
        | NAMED_PAYMENT a nm =>
          rcases hr : resolveContact contacts nm with _ | c
          · left
            refine ⟨_, _, raw, namedNotFoundMsg nm, preOk_two, effPreOk_cancel, ?_⟩
            simp [hr]
          · rcases hty : c.type.getD .mobile with _ | _ | _ | _
            · right
              exact ⟨_, _, .SEND_MONEY a c.phone, raw, preOk_two, effPreOk_cancel, rfl,
                by simp [hr, hty]⟩
            · right
              exact ⟨_, _, .POCHI a c.phone, raw, preOk_two, effPreOk_cancel, rfl,
                by simp [hr, hty]⟩
            · right
              exact ⟨_, _, .TILL a c.phone, raw, preOk_two, effPreOk_cancel, rfl,
                by simp [hr, hty]⟩
            · by_cases hacc : hasAccountNumber c = true
              · right
                exact ⟨_, _, .PAYBILL a c.phone (c.accountNumber.getD ""), raw,
                  preOk_two, effPreOk_cancel, rfl, by simp [hr, hty, hacc]⟩
              · left
                refine ⟨_, _, raw, needsAccountMsg c a, preOk_two, effPreOk_cancel, ?_⟩
                simp at hacc
                simp [hr, hty, hacc]
        | PAYBILL a b acct =>
          right
          exact ⟨_, _, .PAYBILL a b acct, raw, preOk_two, effPreOk_cancel, rfl, rfl⟩
        | TILL a t =>
          right
          exact ⟨_, _, .TILL a t, raw, preOk_two, effPreOk_cancel, rfl, rfl⟩
        | WITHDRAW a g s =>
          right
          exact ⟨_, _, .WITHDRAW a g s, raw, preOk_two, effPreOk_cancel, rfl, rfl⟩

/-! ## Claim theorems -/

/-- C1: in every session run, every `confirming` or `awaiting_confirmation`
snapshot carries a pending intent that is one of the five concrete variants
(never `NAMED_PAYMENT`), and the intent-submission callback is only ever
invoked with a concrete intent: a parsed `NAMED_PAYMENT` is always rewritten
into a concrete variant before the confirmation readback. -/
theorem C1_named_payment_never_reaches_execution (sup : Bool)
    (contacts : List VoiceContact) (cap1 : Except String String)
    (cap2 : Except Unit String) :
    (∀ p ∈ (startRun sup contacts cap1 cap2).trace,
        (p.1 = VoiceCommandState.confirming ∨ p.1 = VoiceCommandState.awaiting_confirmation) →
        pendingConcrete p.2 = true)
    ∧ (startRun sup contacts cap1 cap2).effects.all submitsConcrete = true := by
  rcases startRun_cases sup contacts cap1 cap2 with
    ⟨pre, eff, raw, msg, hpre, heff, heq⟩ | ⟨pre, eff, intent, raw, hpre, heff, hconc, heq⟩
  · rw [heq]
    constructor
    · intro p hp hs
      rw [withPrefix_trace] at hp
      rcases List.mem_append.1 hp with hp | hp
      · rcases (hpre p hp).1 with h1 | h1 <;> rw [h1] at hs <;> simp at hs
      · simp [errorResult] at hp
        rw [hp] at hs
        simp at hs
    · rw [withPrefix_effects]
      refine all_append_and _ _ _ ?_ (by simp [errorResult, submitsConcrete])
      rw [List.all_eq_true]
      intro e he
      rw [heff e he]
      simp [submitsConcrete]
  · rw [heq]
    constructor
    · intro p hp hs
      rw [withPrefix_trace] at hp
      rcases List.mem_append.1 hp with hp | hp
      · rcases (hpre p hp).1 with h1 | h1 <;> rw [h1] at hs <;> simp at hs
      · have := confirmPhase_trace_pending intent raw cap2 p hp hs
        rw [this]
        simpa [pendingConcrete] using hconc
    · rw [withPrefix_effects]
      refine all_append_and _ _ _ ?_ ?_
      · rw [List.all_eq_true]
        intro e he
        rw [heff e he]
        simp [submitsConcrete]
      · rw [List.all_eq_true]
        intro e he
        rcases he' : isSubmitEffect e with _ | _
        · cases e <;> simp_all [isSubmitEffect, submitsConcrete, isConcrete]
        · rw [confirmPhase_submit_eq intent raw cap2 e he he']
          simpa [submitsConcrete] using hconc

/-- C1 witness: a concrete session through the NAMED_PAYMENT rewrite. -/
theorem C1_named_payment_never_reaches_execution_witness :
    pendingConcrete (some (ParsedIntent.TILL "500" "522533")) = true :=
  (C1_named_payment_never_reaches_execution true
      [⟨"Duka", some ContactType.till, "522533", none⟩]
      (Except.ok "pay duka 500") (Except.ok "yes")).1
    (VoiceCommandState.confirming, some (ParsedIntent.TILL "500" "522533"))
    (by decide) (Or.inl rfl)

/-- C2: a session whose transcript parses to a NAMED_PAYMENT that resolves
to a paybill contact without an account number terminates in the `error`
state with the dedicated corrective message, and never invokes the
intent-submission callback. -/
theorem C2_paybill_missing_account_errors (contacts : List VoiceContact)
    (cap2 : Except Unit String) (raw amt nm : String) (c : VoiceContact)
    (hp : parseIntent raw = some (.NAMED_PAYMENT amt nm))
    (hr : resolveContact contacts nm = some c)
    (ht : c.type.getD .mobile = .paybill)
    (ha : hasAccountNumber c = false) :
    (startRun true contacts (.ok raw) cap2).state = VoiceCommandState.error ∧
    (startRun true contacts (.ok raw) cap2).errorMessage = needsAccountMsg c amt ∧
    (startRun true contacts (.ok raw) cap2).effects.all (fun e => !isSubmitEffect e) = true := by
  have hrw : startRun true contacts (.ok raw) cap2 =
      withPrefix [(.listening, none), (.processing, none)] [.cancelSpeech]
        (errorResult raw (needsAccountMsg c amt)) := by
    simp only [startRun, Bool.not_true, Bool.false_eq_true, if_false]
    rw [hp]
    simp only [hr, ht, ha, Bool.false_eq_true, if_false]
  rw [hrw]
  refine ⟨rfl, rfl, ?_⟩
  simp [withPrefix, errorResult, isSubmitEffect]

/-- C2 witness: "pay kplc 500" against a paybill contact with no account
number. -/
theorem C2_paybill_missing_account_errors_witness :
    (startRun true [⟨"Kplc", some ContactType.paybill, "888880", none⟩]
        (.ok "pay kplc 500") (.error ())).state = VoiceCommandState.error ∧
    (startRun true [⟨"Kplc", some ContactType.paybill, "888880", none⟩]
        (.ok "pay kplc 500") (.error ())).errorMessage =
      needsAccountMsg ⟨"Kplc", some ContactType.paybill, "888880", none⟩ "500" ∧
    (startRun true [⟨"Kplc", some ContactType.paybill, "888880", none⟩]
        (.ok "pay kplc 500") (.error ())).effects.all (fun e => !isSubmitEffect e) = true :=
  C2_paybill_missing_account_errors
    [⟨"Kplc", some ContactType.paybill, "888880", none⟩] (.error ())
    "pay kplc 500" "500" "kplc" ⟨"Kplc", some ContactType.paybill, "888880", none⟩
    (by decide) (by decide) (by decide) (by decide)

/-- C7: if a session reaches `awaiting_confirmation` and the confirmation
capture fails, the session does not end in `error`: it returns to
`confirming`, the pending intent is retained, a retry prompt is spoken, and
nothing is submitted. -/
theorem C7_confirmation_capture_failure_recovers (sup : Bool)
    (contacts : List VoiceContact) (cap1 : Except String String)
    (h : ((startRun sup contacts cap1 (.error ())).trace.any
        (fun p => p.1 == VoiceCommandState.awaiting_confirmation)) = true) :
    (startRun sup contacts cap1 (.error ())).state = VoiceCommandState.confirming ∧
    (startRun sup contacts cap1 (.error ())).state ≠ VoiceCommandState.error ∧
    (startRun sup contacts cap1 (.error ())).pendingIntent.isSome = true ∧
    Effect.speak "I couldn't hear you. Tap yes or no on screen."
      ∈ (startRun sup contacts cap1 (.error ())).effects ∧
    (startRun sup contacts cap1 (.error ())).effects.all (fun e => !isSubmitEffect e) = true := by
  rcases startRun_cases sup contacts cap1 (.error ()) with
    ⟨pre, eff, raw, msg, hpre, heff, heq⟩ | ⟨pre, eff, intent, raw, hpre, heff, hconc, heq⟩
  · exfalso
    rw [heq, withPrefix_trace, List.any_append] at h
    rcases Bool.or_eq_true_iff.1 h with h | h
    · rw [List.any_eq_true] at h
      rcases h with ⟨p, hp, hbeq⟩
      rcases (hpre p hp).1 with h1 | h1 <;> rw [h1] at hbeq <;> simp at hbeq
    · simp [errorResult] at h
  · rw [heq]
    rcases confirmPhase_capture_failure intent raw with ⟨h1, h2, h3, h4⟩
    refine ⟨h1, by rw [withPrefix_state, h1]; simp, by rw [withPrefix_pending, h2]; rfl,
      by rw [withPrefix_effects]; exact List.mem_append_right _ h3, ?_⟩
    rw [withPrefix_effects]
    refine all_append_and _ _ _ ?_ ?_
    · rw [List.all_eq_true]
      intro e he
      rw [heff e he]
      simp [isSubmitEffect]
    · rw [List.all_eq_true]
      intro e he
      rw [h4 e he]
      rfl

/-- C7 witness: a TILL session with a failed confirmation capture. -/
theorem C7_confirmation_capture_failure_recovers_witness :
    (startRun true [] (.ok "pay till 522533 500") (.error ())).state =
      VoiceCommandState.confirming ∧
    (startRun true [] (.ok "pay till 522533 500") (.error ())).pendingIntent.isSome = true :=
  ⟨(C7_confirmation_capture_failure_recovers true [] (.ok "pay till 522533 500")
      (by decide)).1,
   (C7_confirmation_capture_failure_recovers true [] (.ok "pay till 522533 500")
      (by decide)).2.2.1⟩

/-- C8: a session whose confirmation utterance is non-affirmative performs
no contact save (including the auto-learn side effect) and no submission,
and the manual `cancel` operation likewise touches neither. -/
theorem C8_cancel_leaves_directory_unchanged (sup : Bool)
    (contacts : List VoiceContact) (cap1 : Except String String) (resp : String)
    (h : affirmative (jsTrim resp) = false) :
    (startRun sup contacts cap1 (.ok resp)).effects.all
      (fun e => !isSaveEffect e && !isSubmitEffect e) = true ∧
    cancelRun.effects.all (fun e => !isSaveEffect e && !isSubmitEffect e) = true := by
  refine ⟨?_, by decide⟩
  rcases startRun_cases sup contacts cap1 (.ok resp) with
    ⟨pre, eff, raw, msg, hpre, heff, heq⟩ | ⟨pre, eff, intent, raw, hpre, heff, hconc, heq⟩
  · rw [heq, withPrefix_effects]
    refine all_append_and _ _ _ ?_ ?_
    · rw [List.all_eq_true]
      intro e he
      rw [heff e he]
      rfl
    · simp [errorResult, isSaveEffect, isSubmitEffect]
  · rw [heq, withPrefix_effects]
    refine all_append_and _ _ _ ?_ ?_
    · rw [List.all_eq_true]
      intro e he
      rw [heff e he]
      rfl
    · rw [List.all_eq_true]
      intro e he
      rcases (confirmPhase_cancelled intent raw resp h).2 e he with ⟨h1, h2⟩
      rw [h1, h2]
      rfl

/-- C8 witness: the "no" utterance after a TILL readback. -/
theorem C8_cancel_leaves_directory_unchanged_witness :
    (startRun true [] (.ok "send 500 to 0712345678") (.ok "no")).effects.all
      (fun e => !isSaveEffect e && !isSubmitEffect e) = true :=
  (C8_cancel_leaves_directory_unchanged true [] (.ok "send 500 to 0712345678") "no"
    (by decide)).1

/-- C9: the confirmation predicate is a pure prefix test on the trimmed
utterance — any utterance whose trimmed form begins (case-insensitively)
with yes/yeah/yep/yup/confirm/send/do it/go/ok/okay, even as a prefix of a
longer word such as "yesterday" or "good", causes the pending intent to be
executed and submitted, and every other utterance cancels to idle without
submitting. -/
theorem C9_confirmation_checks_leading_text (sup : Bool)
    (contacts : List VoiceContact) (cap1 : Except String String) (resp : String)
    (h : ((startRun sup contacts cap1 (.ok resp)).trace.any
        (fun p => p.1 == VoiceCommandState.awaiting_confirmation)) = true) :
    (affirmative (jsTrim resp) = true →
      (startRun sup contacts cap1 (.ok resp)).state = VoiceCommandState.idle ∧
      (startRun sup contacts cap1 (.ok resp)).effects.any isSubmitEffect = true ∧
      ∀ i, Effect.submit i ∈ (startRun sup contacts cap1 (.ok resp)).effects →
        (VoiceCommandState.awaiting_confirmation, some i)
          ∈ (startRun sup contacts cap1 (.ok resp)).trace) ∧
    (affirmative (jsTrim resp) = false →
      (startRun sup contacts cap1 (.ok resp)).state = VoiceCommandState.idle ∧
      (startRun sup contacts cap1 (.ok resp)).effects.any isSubmitEffect = false) ∧
    affirmative "yesterday" = true ∧ affirmative "good" = true ∧
    affirmative "no" = false := by
  rcases startRun_cases sup contacts cap1 (.ok resp) with
    ⟨pre, eff, raw, msg, hpre, heff, heq⟩ | ⟨pre, eff, intent, raw, hpre, heff, hconc, heq⟩
  · exfalso
    rw [heq, withPrefix_trace, List.any_append] at h
    rcases Bool.or_eq_true_iff.1 h with h | h
    · rw [List.any_eq_true] at h
      rcases h with ⟨p, hp, hbeq⟩
      rcases (hpre p hp).1 with h1 | h1 <;> rw [h1] at hbeq <;> simp at hbeq
    · simp [errorResult] at h
  · refine ⟨?_, ?_, by decide, by decide, by decide⟩
    · intro haff
      rcases confirmPhase_confirmed intent raw resp haff with ⟨h1, h2, h3⟩
      rw [heq]
      refine ⟨by rw [withPrefix_state]; exact h1, ?_, ?_⟩
      · rw [withPrefix_effects, List.any_append, Bool.or_eq_true_iff]
        right
        rw [List.any_eq_true]
        exact ⟨Effect.submit intent, h2, rfl⟩
      · intro i hi
        rw [withPrefix_effects] at hi
        rcases List.mem_append.1 hi with hi | hi
        · exact absurd (heff _ hi) (by simp)
        · have hii : i = intent := by
            have := confirmPhase_submit_eq intent raw (.ok resp) (Effect.submit i) hi rfl
            exact Effect.submit.inj this
          rw [withPrefix_trace]
          rw [hii]
          exact List.mem_append_right _ h3
    · intro haff
      rcases confirmPhase_cancelled intent raw resp haff with ⟨h1, h2⟩
      rw [heq]
      refine ⟨by rw [withPrefix_state]; exact h1, ?_⟩
      rw [withPrefix_effects, List.any_append]
      rw [Bool.or_eq_false_iff]
      constructor
      · rw [List.any_eq_false]
        intro e he
        rw [heff e he]
        simp [isSubmitEffect]
      · rw [List.any_eq_false]
        intro e he
        simp [(h2 e he).2]

/-! ### Amount-shape lemmas (for C6) -/

theorem digit_ne_comma (c : Char) (h : isJsDigit c = true) : (c != ',') = true := by
  by_cases hc : c = ','
  · subst hc
    simp [isJsDigit] at h
  · simp [bne, hc]

theorem takeWhile_all (p : Char → Bool) (l : List Char) :
    (l.takeWhile p).all p = true := by
  induction l with
  | nil => rfl
  | cons c cs ih =>
    by_cases hc : p c = true <;> simp [List.takeWhile_cons, hc, ih]

theorem all_takeWhile_eq_self (p : Char → Bool) (l : List Char)
    (h : l.all p = true) : l.takeWhile p = l := by
  induction l with
  | nil => rfl
  | cons c cs ih =>
    rw [List.all_cons, Bool.and_eq_true] at h
    simp [List.takeWhile_cons, h.1, ih h.2]

theorem all_dropWhile_eq_nil (p : Char → Bool) (l : List Char)
    (h : l.all p = true) : l.dropWhile p = [] := by
  induction l with
  | nil => rfl
  | cons c cs ih =>
    rw [List.all_cons, Bool.and_eq_true] at h
    simp [List.dropWhile_cons, h.1, ih h.2]

theorem takeWhile_append_stop (p : Char → Bool) (l : List Char) (c : Char)
    (r : List Char) (hl : l.all p = true) (hc : p c = false) :
    ((l ++ c :: r).takeWhile p = l ∧ (l ++ c :: r).dropWhile p = c :: r) := by
  induction l with
  | nil => simp [List.takeWhile_cons, List.dropWhile_cons, hc]
  | cons x xs ih =>
    rw [List.all_cons, Bool.and_eq_true] at hl
    have := ih hl.2
    simp [List.takeWhile_cons, List.dropWhile_cons, hl.1, this.1, this.2]

theorem all_imp_filter_comma_eq (l : List Char) (h : l.all isJsDigit = true) :
    l.filter (fun c => c != ',') = l := by
  rw [List.filter_eq_self]
  intro a ha
  exact digit_ne_comma a ((List.all_eq_true.1 h) a ha)

theorem normalizeAmount_no_comma (s : String) :
    (normalizeAmount s).data.all (fun c => c != ',') = true := by
  rw [List.all_eq_true]
  intro c hc
  exact (List.mem_filter.1 hc).2

theorem canonical_of_digits (l : List Char) (hne : l ≠ [])
    (hall : l.all isJsDigit = true) : isCanonicalAmount (String.mk l) = true := by
  unfold isCanonicalAmount
  dsimp only
  rw [all_takeWhile_eq_self _ _ hall, all_dropWhile_eq_nil _ _ hall]
  simp [hne]

theorem canonical_of_dot (ds ds2 : List Char) (hne : ds ≠ [])
    (hall : ds.all isJsDigit = true) (hne2 : ds2 ≠ [])
    (hall2 : ds2.all isJsDigit = true) :
    isCanonicalAmount (String.mk (ds ++ '.' :: ds2)) = true := by
  unfold isCanonicalAmount
  dsimp only
  have hdot : isJsDigit '.' = false := by decide
  rcases takeWhile_append_stop isJsDigit ds '.' ds2 hall hdot with ⟨h1, h2⟩
  rw [h1, h2]
  simp [hne, hne2, hall2]

theorem ite_some_none_inv {A : Type} {c : Prop} [Decidable c] {x y : A}
    (h : (if c then some x else none) = some y) : c ∧ x = y := by
  by_cases hc : c
  · rw [if_pos hc, Option.some_inj] at h
    exact ⟨hc, h⟩
  · rw [if_neg hc] at h
    simp at h

theorem digits1_inv (s ds rest : List Char) (h : digits1 s = some (ds, rest)) :
    ds ≠ [] ∧ ds.all isJsDigit = true := by
  unfold digits1 at h
  dsimp only at h
  by_cases he : (s.takeWhile isJsDigit).isEmpty = true
  · rw [if_pos he] at h
    simp at h
  · rw [if_neg he] at h
    rw [Option.some_inj, Prod.mk.injEq] at h
    refine ⟨?_, h.1 ▸ takeWhile_all isJsDigit s⟩
    rw [h.1] at he
    simpa using he

theorem sepDigits_inv (rest : List Char) (c : Char) (ds2 rest2 : List Char)
    (h : sepDigits rest = some (c, ds2, rest2)) :
    (c = ',' ∨ c = '.') ∧ ds2 ≠ [] ∧ ds2.all isJsDigit = true := by
  rcases rest with _ | ⟨c1, cs⟩
  · simp [sepDigits] at h
  · unfold sepDigits at h
    dsimp only at h
    by_cases hc : (c1 == ',' || c1 == '.') = true
    · rw [if_pos hc] at h
      rcases h2 : digits1 cs with _ | ⟨dd, rr⟩ <;> rw [h2] at h
      · simp at h
      · dsimp only at h
        rw [Option.some_inj, Prod.mk.injEq, Prod.mk.injEq] at h
        obtain ⟨hcc, hdd, -⟩ := h
        obtain ⟨hne, hall⟩ := digits1_inv cs dd rr h2
        refine ⟨?_, hdd ▸ hne, hdd ▸ hall⟩
        rcases Bool.or_eq_true_iff.1 hc with hc1 | hc1
        · exact Or.inl (hcc ▸ (by simpa using hc1))
        · exact Or.inr (hcc ▸ (by simpa using hc1))
    · rw [if_neg hc] at h
      simp at h

theorem takeAmount_shape (s raw rest : List Char)
    (h : takeAmount s = some (raw, rest)) :
    (raw ≠ [] ∧ raw.all isJsDigit = true) ∨
    (∃ ds c ds2, raw = ds ++ c :: ds2 ∧ ds ≠ [] ∧ ds.all isJsDigit = true ∧
      ds2 ≠ [] ∧ ds2.all isJsDigit = true ∧ (c = ',' ∨ c = '.')) := by
  unfold takeAmount at h
  simp only [Option.bind_eq_some] at h
  obtain ⟨⟨ds1, r1⟩, h1, h⟩ := h
  obtain ⟨hne, hall⟩ := digits1_inv s ds1 r1 h1
  dsimp only at h
  rcases h2 : sepDigits r1 with _ | ⟨c, ds2, rest2⟩ <;> rw [h2] at h <;> dsimp only at h
  · rw [Option.some_inj, Prod.mk.injEq] at h
    exact Or.inl ⟨h.1 ▸ hne, h.1 ▸ hall⟩
  · rw [Option.some_inj, Prod.mk.injEq] at h
    obtain ⟨hsep, hne2, hall2⟩ := sepDigits_inv r1 c ds2 rest2 h2
    exact Or.inr ⟨ds1, c, ds2, h.1.symm, hne, hall, hne2, hall2, hsep⟩

/-- The normalized form of any amount captured by `takeAmount` is free of
commas and canonical (digits, optionally a decimal point and digits). -/
theorem takeAmount_normalized_canonical (s raw rest : List Char)
    (h : takeAmount s = some (raw, rest)) :
    (normalizeAmount (String.mk raw)).data.all (fun c => c != ',') = true ∧
    isCanonicalAmount (normalizeAmount (String.mk raw)) = true := by
  refine ⟨normalizeAmount_no_comma _, ?_⟩
  rcases takeAmount_shape s raw rest h with ⟨hne, hall⟩ |
    ⟨ds, c, ds2, hraw, hne, hall, hne2, hall2, hc⟩
  · show isCanonicalAmount (String.mk (raw.filter (fun c => c != ','))) = true
    rw [all_imp_filter_comma_eq raw hall]
    exact canonical_of_digits raw hne hall
  · show isCanonicalAmount (String.mk (raw.filter (fun c => c != ','))) = true
    subst hraw
    rcases hc with hc | hc <;> subst hc
    · rw [List.filter_append, all_imp_filter_comma_eq ds hall,
        List.filter_cons_of_neg (by simp), all_imp_filter_comma_eq ds2 hall2]
      refine canonical_of_digits (ds ++ ds2) (by simp [hne]) ?_
      rw [List.all_append, hall, hall2]
      rfl
    · rw [List.filter_append, all_imp_filter_comma_eq ds hall,
        List.filter_cons_of_pos (by simp), all_imp_filter_comma_eq ds2 hall2]
      exact canonical_of_dot ds ds2 hne hall hne2 hall2

/-! ### Per-template amount origin (for C6) -/

theorem matchSend_amount (t a n : List Char) (h : matchSend t = some (a, n)) :
    ∃ s rest, takeAmount s = some (a, rest) := by
  unfold matchSend at h
  simp only [Option.bind_eq_some] at h
  obtain ⟨r1, h1, r2, h2, ⟨amt, r3⟩, h3, h⟩ := h
  simp only [Option.bind_eq_some] at h
  obtain ⟨r4, h4, r7, h5, h⟩ := h
  obtain ⟨-, h7⟩ := ite_some_none_inv h
  rw [Prod.mk.injEq] at h7
  exact ⟨r2, r3, h7.1 ▸ h3⟩

theorem matchPochi_amount (t a n : List Char) (h : matchPochi t = some (a, n)) :
    ∃ s rest, takeAmount s = some (a, rest) := by
  unfold matchPochi at h
  simp only [Option.bind_eq_some] at h
  obtain ⟨r1, h1, r2, h2, ⟨amt, r3⟩, h3, h⟩ := h
  simp only [Option.bind_eq_some] at h
  obtain ⟨r4, h4, r5, h5, h⟩ := h
  obtain ⟨-, h7⟩ := ite_some_none_inv h
  rw [Prod.mk.injEq] at h7
  exact ⟨r2, r3, h7.1 ▸ h3⟩

theorem matchPaybill_amount (t b acct a : List Char)
    (h : matchPaybill t = some (b, acct, a)) :
    ∃ s rest, takeAmount s = some (a, rest) := by
  unfold matchPaybill at h
  simp only [Option.bind_eq_some] at h
  obtain ⟨r1, h1, r2, h2, r3, h3, ⟨bus, r4⟩, h4, h⟩ := h
  simp only [Option.bind_eq_some] at h
  obtain ⟨r5, h5, r6, h6, r7, h7, ⟨ac, r8⟩, h8, h⟩ := h
  simp only [Option.bind_eq_some] at h
  obtain ⟨r9, h9, ⟨amt, rest⟩, h10, h⟩ := h
  obtain ⟨-, h12⟩ := ite_some_none_inv h
  rw [Prod.mk.injEq, Prod.mk.injEq] at h12
  exact ⟨optAmountKw r9, rest, h12.2.2 ▸ h10⟩

theorem matchTill_amount (t till a : List Char) (h : matchTill t = some (till, a)) :
    ∃ s rest, takeAmount s = some (a, rest) := by
  unfold matchTill at h
  simp only [Option.bind_eq_some] at h
  obtain ⟨r3, h1, r4, h2, ⟨tl, r5⟩, h3, h⟩ := h
  simp only [Option.bind_eq_some] at h
  obtain ⟨r6, h4, ⟨amt, rest⟩, h5, h⟩ := h
  obtain ⟨-, h6⟩ := ite_some_none_inv h
  rw [Prod.mk.injEq] at h6
  exact ⟨optAmountKw r6, rest, h6.2 ▸ h5⟩

theorem matchWithdraw_amount (t a ag st : List Char)
    (h : matchWithdraw t = some (a, ag, st)) :
    ∃ s rest, takeAmount s = some (a, rest) := by
  unfold matchWithdraw at h
  simp only [Option.bind_eq_some] at h
  obtain ⟨r1, h1, r2, h2, ⟨amt, r3⟩, h3, h⟩ := h
  simp only [Option.bind_eq_some] at h
  obtain ⟨r4, h4, r5, h5, r6, h6, ⟨agn, r7⟩, h7, h⟩ := h
  simp only [Option.bind_eq_some] at h
  obtain ⟨r8, h8, r9, h9, r10, h10, ⟨stn, rest⟩, h11, h⟩ := h
  obtain ⟨-, h12⟩ := ite_some_none_inv h
  rw [Prod.mk.injEq, Prod.mk.injEq] at h12
  exact ⟨r2, r3, h12.1 ▸ h3⟩

theorem namedTailAmount_amount (r amt : List Char)
    (h : namedTailAmount r = some amt) :
    ∃ s rest, takeAmount s = some (amt, rest) := by
  unfold namedTailAmount at h
  simp only [Option.bind_eq_some] at h
  obtain ⟨r1, h1, ⟨a2, rest2⟩, h2, h⟩ := h
  obtain ⟨-, h3⟩ := ite_some_none_inv h
  exact ⟨optAmountKw r1, rest2, h3 ▸ h2⟩

theorem namedLazyScan_amount (r : List Char) :
    ∀ accRev nm amt, namedLazyScan accRev r = some (nm, amt) →
      ∃ s rest, takeAmount s = some (amt, rest) := by
  induction r with
  | nil =>
    intro acc nm amt h
    unfold namedLazyScan at h
    rcases h1 : namedTailAmount [] with _ | a <;> rw [h1] at h
    · simp at h
    · simp at h
      exact h.2 ▸ namedTailAmount_amount [] a h1
  | cons c cs ih =>
    intro acc nm amt h
    unfold namedLazyScan at h
    rcases h1 : namedTailAmount (c :: cs) with _ | a <;> rw [h1] at h
    · dsimp only at h
      by_cases h2 : (isAsciiAlpha c || isJsDigit c || isJsWs c) = true
      · rw [if_pos h2] at h
        exact ih _ _ _ h
      · rw [if_neg h2] at h
        simp at h
    · simp at h
      exact h.2 ▸ namedTailAmount_amount _ a h1

theorem matchNamed_amount (t nm a : List Char) (h : matchNamed t = some (nm, a)) :
    ∃ s rest, takeAmount s = some (a, rest) := by
  unfold matchNamed at h
  simp only [Option.bind_eq_some] at h
  obtain ⟨r1, h1, r2, h2, h⟩ := h
  rcases r2 with _ | ⟨c, cs⟩
  · simp at h
  · dsimp only at h
    by_cases h3 : isAsciiAlpha c = true
    · rw [if_pos h3] at h
      exact namedLazyScan_amount cs [c] nm a h
    · rw [if_neg h3] at h
      simp at h

/-- C6: every successfully parsed intent carries a comma-free amount
matching digits optionally followed by a decimal point and digits, and
amounts with embedded commas normalize identically to amounts without:
"send 1,000 to 0712345678" and "send 1000 to 0712345678" parse to the same
intent with amount "1000". -/
theorem C6_amounts_normalized (tr : String) (i : ParsedIntent)
    (h : parseIntent tr = some i) :
    (amountOf i).data.all (fun c => c != ',') = true ∧
    isCanonicalAmount (amountOf i) = true ∧
    parseIntent "send 1,000 to 0712345678" =
      some (ParsedIntent.SEND_MONEY "1000" "0712345678") ∧
    parseIntent "send 1000 to 0712345678" =
      some (ParsedIntent.SEND_MONEY "1000" "0712345678") := by
  have main : (amountOf i).data.all (fun c => c != ',') = true ∧
      isCanonicalAmount (amountOf i) = true := by
    unfold parseIntent at h
    dsimp only at h
    rcases hS : matchSend (jsTrim tr).data with _ | ⟨aS, nS⟩ <;> rw [hS] at h
    · dsimp only at h
      rcases hP : matchPochi (jsTrim tr).data with _ | ⟨aP, nP⟩ <;> rw [hP] at h
      · dsimp only at h
        rcases hB : matchPaybill (jsTrim tr).data with _ | ⟨bB, acB, aB⟩ <;> rw [hB] at h
        · dsimp only at h
          rcases hT : matchTill (jsTrim tr).data with _ | ⟨tT, aT⟩ <;> rw [hT] at h
          · dsimp only at h
            rcases hW : matchWithdraw (jsTrim tr).data with _ | ⟨aW, gW, sW⟩ <;> rw [hW] at h
            · dsimp only at h
              rcases hN : matchNamed (jsTrim tr).data with _ | ⟨nN, aN⟩ <;> rw [hN] at h
              · dsimp only at h
                simp at h
              · dsimp only at h
                rw [Option.some_inj] at h
                subst h
                obtain ⟨s, rest, hta⟩ := matchNamed_amount _ _ _ hN
                simpa [amountOf] using takeAmount_normalized_canonical s aN rest hta
            · dsimp only at h
              rw [Option.some_inj] at h
              subst h
              obtain ⟨s, rest, hta⟩ := matchWithdraw_amount _ _ _ _ hW
              simpa [amountOf] using takeAmount_normalized_canonical s aW rest hta
          · dsimp only at h
            rw [Option.some_inj] at h
            subst h
            obtain ⟨s, rest, hta⟩ := matchTill_amount _ _ _ hT
            simpa [amountOf] using takeAmount_normalized_canonical s aT rest hta
        · dsimp only at h
          rw [Option.some_inj] at h
          subst h
          obtain ⟨s, rest, hta⟩ := matchPaybill_amount _ _ _ _ hB
          simpa [amountOf] using takeAmount_normalized_canonical s aB rest hta
      · dsimp only at h
        rw [Option.some_inj] at h
        subst h
        obtain ⟨s, rest, hta⟩ := matchPochi_amount _ _ _ hP
        simpa [amountOf] using takeAmount_normalized_canonical s aP rest hta
    · dsimp only at h
      rw [Option.some_inj] at h
      subst h
      obtain ⟨s, rest, hta⟩ := matchSend_amount _ _ _ hS
      simpa [amountOf] using takeAmount_normalized_canonical s aS rest hta
  exact ⟨main.1, main.2, by decide, by decide⟩

/-- C6 witness: "pay till 9 1,000" parses with the comma stripped and a
canonical amount. -/
theorem C6_amounts_normalized_witness :
    ((amountOf (ParsedIntent.TILL "1000" "9")).data.all (fun c => c != ',') = true) ∧
    isCanonicalAmount (amountOf (ParsedIntent.TILL "1000" "9")) = true ∧
    parseIntent "send 1,000 to 0712345678" =
      some (ParsedIntent.SEND_MONEY "1000" "0712345678") ∧
    parseIntent "send 1000 to 0712345678" =
      some (ParsedIntent.SEND_MONEY "1000" "0712345678") :=
  C6_amounts_normalized "pay till 9 1,000" (ParsedIntent.TILL "1000" "9") (by decide)

/-- C3: "pay till 522533 500" parses as TILL {amount "500", till "522533"},
and any transcript matching the TILL template is never classified as
NAMED_PAYMENT: the templates are tried in a fixed order and the generic
named-payment template is checked last. -/
theorem C3_till_template_shadows_named (t : String)
    (h : (matchTill (jsTrim t).data).isSome = true) :
    parseIntent "pay till 522533 500" = some (ParsedIntent.TILL "500" "522533") ∧
    isNamed (parseIntent t) = false := by
  refine ⟨by decide, ?_⟩
  unfold parseIntent
  dsimp only
  rcases hS : matchSend (jsTrim t).data with _ | ⟨aS, nS⟩
  · rcases hP : matchPochi (jsTrim t).data with _ | ⟨aP, nP⟩
    · rcases hB : matchPaybill (jsTrim t).data with _ | ⟨b1, b2, b3⟩
      · rcases hT : matchTill (jsTrim t).data with _ | ⟨t1, t2⟩
        · rw [hT] at h
          simp at h
        · simp [isNamed]
      · simp [isNamed]
    · simp [isNamed]
  · simp [isNamed]

/-- C3 witness: "buy goods 12 34" matches the TILL template and is not a
NAMED_PAYMENT. -/
theorem C3_till_template_shadows_named_witness :
    parseIntent "pay till 522533 500" = some (ParsedIntent.TILL "500" "522533") ∧
    isNamed (parseIntent "buy goods 12 34") = false :=
  C3_till_template_shadows_named "buy goods 12 34" (by decide)

/-- C4: a phone-shaped query (trimmed, 7–15 characters drawn from digits,
'+', whitespace, '-', '(' and ')') resolves to its normalized form without
consulting the directory, for any directory contents; in particular
`resolvePhoneOrName "0712345678"` is `some "0712345678"` for every
directory. -/
theorem C4_phone_query_bypasses_directory (contacts : List VoiceContact)
    (query : String) (h : isPhoneNumber (jsTrim query) = true) :
    resolvePhoneOrName contacts query = some (normalizePhone (jsTrim query)) ∧
    resolvePhoneOrName contacts "0712345678" = some "0712345678" := by
  constructor
  · unfold resolvePhoneOrName
    rw [if_pos h]
  · unfold resolvePhoneOrName
    rw [if_pos (by decide)]
    decide

/-- C4 witness: a formatted international number, against the empty
directory. -/
theorem C4_phone_query_bypasses_directory_witness :
    isPhoneNumber (jsTrim "+254 712-345678") = true ∧
    resolvePhoneOrName [] "+254 712-345678" = some "0712345678" :=
  ⟨by decide,
   ((C4_phone_query_bypasses_directory [] "+254 712-345678" (by decide)).1).trans
     (by decide)⟩

/-- C5 counterexample: in a directory whose only contact named "David" has
type till, `resolvePhoneOrName "david"` is not none — another mobile
contact ("Davidson") satisfies the case-insensitive prefix stage, so the
claim's universal clause fails. -/
theorem C5_counterexample :
    (([⟨"David", some ContactType.till, "522533", none⟩,
       ⟨"Davidson", some ContactType.mobile, "0799000111", none⟩] :
        List VoiceContact).all
      (fun c => c.name != "David" || c.type == some ContactType.till)) = true ∧
    resolvePhoneOrName
      [⟨"David", some ContactType.till, "522533", none⟩,
       ⟨"Davidson", some ContactType.mobile, "0799000111", none⟩] "david"
      = some "0799000111" := by
  constructor
  · decide
  · decide

/-- C5 (amended): the concrete resolutions hold as claimed, and in every
directory whose sole contact is a "David" of type till or paybill,
`resolvePhoneOrName "david"` is none (the stronger original clause — every
directory whose only contact *named David* is till/paybill — fails, see the
counterexample). -/
theorem C5_resolution_stages (ty : ContactType) (ph : String) (acct : Option String)
    (h : ty = ContactType.till ∨ ty = ContactType.paybill) :
    resolvePhoneOrName [⟨"David", some ty, ph, acct⟩] "david" = none ∧
    resolvePhoneOrName [⟨"David", some ContactType.mobile, "0712345678", none⟩]
      "david" = some "0712345678" ∧
    resolvePhoneOrName [⟨"David", some ContactType.mobile, "0712345678", none⟩]
      "dav" = some "0712345678" ∧
    resolveContact [⟨"David", some ContactType.mobile, "0712345678", none⟩]
      "David" = some ⟨"David", some ContactType.mobile, "0712345678", none⟩ := by
  refine ⟨?_, by decide, by decide, by decide⟩
  have hp : isPhoneNumber (jsTrim "david") = false := by decide
  rcases h with h | h <;> subst h <;>
    · unfold resolvePhoneOrName
      rw [if_neg (by simp [hp])]
      simp [mobileLike]

/-- C5 witness: the singleton till directory. -/
theorem C5_resolution_stages_witness :
    resolvePhoneOrName [⟨"David", some ContactType.till, "522533", none⟩]
      "david" = none :=
  (C5_resolution_stages ContactType.till "522533" none (Or.inl rfl)).1

/-- C10: the phone-shape test requires no digit — the seven-dash query is
phone-shaped, contains no digit, and resolves to the separator-stripped
string (here the empty string) for every directory, instead of falling
through to name lookup or returning none. -/
theorem C10_phone_shape_needs_no_digit (contacts : List VoiceContact) :
    isPhoneNumber "-------" = true ∧
    "-------".data.all (fun c => !isJsDigit c) = true ∧
    resolvePhoneOrName contacts "-------" = some "" := by
  refine ⟨by decide, by decide, ?_⟩
  unfold resolvePhoneOrName
  rw [if_pos (by decide)]
  decide

/-- C9 witness: "yesterday" confirms a pending SEND_MONEY by prefix. -/
theorem C9_confirmation_checks_leading_text_witness :
    (startRun true [] (.ok "send 500 to 0712345678") (.ok "yesterday")).state =
      VoiceCommandState.idle ∧
    (startRun true [] (.ok "send 500 to 0712345678") (.ok "yesterday")).effects.any
      isSubmitEffect = true :=
  ⟨((C9_confirmation_checks_leading_text true [] (.ok "send 500 to 0712345678") "yesterday"
      (by decide)).1 (by decide)).1,
   ((C9_confirmation_checks_leading_text true [] (.ok "send 500 to 0712345678") "yesterday"
      (by decide)).1 (by decide)).2.1⟩

end PesaMirror
